import Mathlib

/-!
Verification of the scan-filter-batch-trigger engine of score-checker.

The development shallowly embeds the Go functions `findLowScoreEpisodes`
and `findLowScoreMovies` of `internal/app/app.go`, together with the data
model of `internal/types/types.go`.  Go machine integers are modelled by
`Int` (no arithmetic here can overflow: counters are bounded by list
lengths and scores are only compared to zero).  Go slices are modelled by
`GoSlice`, which records nil-ness in addition to the elements, because
`var s []T` is nil while `append` always yields a non-nil slice.
Fallible client calls (`GetSeries`, `GetEpisodes`, `GetMovies`) are
modelled as `Except String` valued data supplied by a client record.
The observable effects of a run (the matches returned, the collected
pending-search ID list, the error, which series had their episodes
fetched, and which trigger calls were issued with which ID batches) are
collected in an outcome record; logging is the only effect not modelled.
-/

namespace ScoreChecker

/-- Go slice value: `isNil` distinguishes the nil slice from a non-nil
empty one.  `var s []T` in Go yields the nil slice; `append` always
returns a non-nil slice. -/
structure GoSlice (α : Type) where
  isNil : Bool
  elems : List α
  deriving Repr, DecidableEq

/-- The zero value `var s []T` of a Go slice type: nil, no elements. -/
def GoSlice.nil {α : Type} : GoSlice α := ⟨true, []⟩

/-- Go `append(s, a)`: appends one element; the result is never nil. -/
def GoSlice.push {α : Type} (s : GoSlice α) (a : α) : GoSlice α :=
  ⟨false, s.elems ++ [a]⟩

/-- Length of a Go slice (`len`); `len(nil) = 0`. -/
def GoSlice.len {α : Type} (s : GoSlice α) : Nat := s.elems.length

/-! Data model, from `internal/types/types.go`. -/

/-- Series represents a Sonarr series (minimal fields needed). -/
structure Series where
  id : Int
  title : String
  deriving Repr, DecidableEq

/-- EpisodeFile represents episode file info. -/
structure EpisodeFile where
  id : Int
  customFormatScore : Int
  deriving Repr, DecidableEq

/-- Episode represents a Sonarr episode. -/
structure Episode where
  id : Int
  seriesId : Int
  title : String
  seasonNumber : Int
  episodeNumber : Int
  hasFile : Bool
  episodeFile : Option EpisodeFile
  deriving Repr, DecidableEq

/-- LowScoreEpisode represents an episode with a low custom format score. -/
structure LowScoreEpisode where
  series : Series
  episode : Episode
  customFormatScore : Int
  deriving Repr, DecidableEq

/-- MovieFile represents movie file info. -/
structure MovieFile where
  id : Int
  customFormatScore : Int
  deriving Repr, DecidableEq

/-- MovieWithFile represents a movie with its file information. -/
structure MovieWithFile where
  id : Int
  title : String
  year : Int
  hasFile : Bool
  movieFile : Option MovieFile
  deriving Repr, DecidableEq

/-- LowScoreMovie represents a movie with a low custom format score. -/
structure LowScoreMovie where
  movie : MovieWithFile
  customFormatScore : Int
  deriving Repr, DecidableEq

/-- CommandResponse represents the response from a command request. -/
structure CommandResponse where
  id : Int
  name : String
  commandName : String
  status : String
  deriving Repr, DecidableEq

/-- Config fields of `types.Config` consumed by the engine
(the instance lists and interval play no role in one scan). -/
structure Config where
  triggerSearch : Bool
  batchSize : Int
  deriving Repr, DecidableEq

/-- Modelled from the spec: the `constants` package (absent from the
sources; only its caller `app.go` is present) defines
`DefaultSearchBatchSize`, the fixed maximum sub-batch size of a
search-trigger call; the spec fixes it at 10 identifiers per sub-batch. -/
def DefaultSearchBatchSize : Nat := 10

/-- Catalog client bound to one Sonarr instance: the results the next
`GetSeries` and `GetEpisodes` calls would return.  The HTTP transport of
`internal/sonarr/client.go` is abstracted into this data. -/
structure SonarrClient where
  getSeries : Except String (List Series)
  getEpisodes : Int → Except String (List Episode)

/-- Catalog client bound to one Radarr instance, abstracting the HTTP
transport of the Radarr client. -/
structure RadarrClient where
  getMovies : Except String (List MovieWithFile)

/-- Guard of `TriggerEpisodeSearch` in `internal/sonarr/client.go`: an
empty ID list is rejected before any request is built; otherwise the
HTTP layer (abstracted as `http`) decides the outcome. -/
def TriggerEpisodeSearch (http : List Int → Except String CommandResponse)
    (episodeIDs : List Int) : Except String CommandResponse :=
  if episodeIDs.length = 0 then .error "no episode IDs provided"
  else http episodeIDs

/-- Guard of `TriggerMovieSearch` in the Radarr client: an empty ID list
is rejected before any request is built. -/
def TriggerMovieSearch (http : List Int → Except String CommandResponse)
    (movieIDs : List Int) : Except String CommandResponse :=
  if movieIDs.length = 0 then .error "no movie IDs provided"
  else http movieIDs

/-! The scan-and-collect engine, from `internal/app/app.go`. -/

/-- Loop state of `findLowScoreEpisodes`: the accumulator variables of
the Go function plus the ghost trace `episodeFetches` recording, in
order, the series IDs passed to `GetEpisodes`. -/
structure EpScanState where
  lowScoreEpisodes : GoSlice LowScoreEpisode
  episodesToSearch : List Int
  processedCount : Int
  reachedLimit : Bool
  episodeFetches : List Int
  deriving Repr, DecidableEq

/-- Inner loop of `findLowScoreEpisodes` over one series' episodes:
an episode with a file and a negative custom format score is appended to
the matches (and, if triggering is enabled, its ID to the pending-search
list); the processed counter is incremented and, when a positive batch
size is reached, the loop breaks with `reachedLimit` set. -/
def scanEpisodes (cfg : Config) (s : Series) (st : EpScanState) :
    List Episode → EpScanState
  | [] => st
  | episode :: rest =>
    if episode.hasFile then
      match episode.episodeFile with
      | some episodeFile =>
        if episodeFile.customFormatScore < 0 then
          let st1 := { st with
            lowScoreEpisodes := st.lowScoreEpisodes.push
              { series := s, episode := episode,
                customFormatScore := episodeFile.customFormatScore } }
          let st2 :=
            if cfg.triggerSearch then
              { st1 with episodesToSearch := st1.episodesToSearch ++ [episode.id] }
            else st1
          let st3 := { st2 with processedCount := st2.processedCount + 1 }
          if cfg.batchSize > 0 ∧ st3.processedCount ≥ cfg.batchSize then
            { st3 with reachedLimit := true }
          else
            scanEpisodes cfg s st3 rest
        else scanEpisodes cfg s st rest
      | none => scanEpisodes cfg s st rest
    else scanEpisodes cfg s st rest

/-- Outer loop of `findLowScoreEpisodes` over the series list: breaks
when the limit was reached; otherwise fetches the series' episodes
(recorded in the ghost trace), skipping the series when the fetch fails
(the failure is only logged), and scans them. -/
def scanSeries (client : SonarrClient) (cfg : Config) (st : EpScanState) :
    List Series → EpScanState
  | [] => st
  | s :: rest =>
    if st.reachedLimit then st
    else
      let st0 := { st with episodeFetches := st.episodeFetches ++ [s.id] }
      match client.getEpisodes s.id with
      | .error _ => scanSeries client cfg st0 rest
      | .ok episodes => scanSeries client cfg (scanEpisodes cfg s st0 episodes) rest

/-- Sub-batching loop of the trigger block
(`for i := 0; i < len(ids); i += batchSize`): the consecutive chunks of
at most `DefaultSearchBatchSize` IDs, in order, one per trigger call.
A failed call is only logged and the loop continues, so the calls issued
are exactly these chunks. -/
def triggerBatches : List Int → List (List Int)
  | [] => []
  | id0 :: restIds =>
    (id0 :: restIds).take DefaultSearchBatchSize ::
      triggerBatches ((id0 :: restIds).drop DefaultSearchBatchSize)
  termination_by ids => ids.length
  decreasing_by
    simp [DefaultSearchBatchSize]
    omega

/-- Observable outcome of one `findLowScoreEpisodes` run: the returned
slice and error, the collected pending-search IDs, and the ghost traces
of episode fetches and issued trigger calls. -/
structure EpisodeScanOutcome where
  lowScoreEpisodes : GoSlice LowScoreEpisode
  episodesToSearch : List Int
  error : Option String
  episodeFetches : List Int
  triggerCalls : List (List Int)
  deriving Repr, DecidableEq

/-- Embedding of `findLowScoreEpisodes`: fetch all series (aborting with
an error if that fails), scan them accumulating low-score matches up to
the batch limit, then, if triggering is enabled and IDs were collected,
issue one trigger call per sub-batch (per-call failures only logged). -/
def findLowScoreEpisodes (client : SonarrClient) (cfg : Config) :
    EpisodeScanOutcome :=
  match client.getSeries with
  | .error e =>
    { lowScoreEpisodes := GoSlice.nil, episodesToSearch := [],
      error := some ("getting series: " ++ e),
      episodeFetches := [], triggerCalls := [] }
  | .ok series =>
    let st := scanSeries client cfg
      { lowScoreEpisodes := GoSlice.nil, episodesToSearch := [],
        processedCount := 0, reachedLimit := false, episodeFetches := [] }
      series
    let calls :=
      if cfg.triggerSearch ∧ st.episodesToSearch.length > 0 then
        triggerBatches st.episodesToSearch
      else []
    { lowScoreEpisodes := st.lowScoreEpisodes,
      episodesToSearch := st.episodesToSearch,
      error := none,
      episodeFetches := st.episodeFetches,
      triggerCalls := calls }

/-- Loop state of `findLowScoreMovies`: its accumulator variables
(the movie loop uses a plain `break`, so no `reachedLimit` flag). -/
structure MvScanState where
  lowScoreMovies : GoSlice LowScoreMovie
  moviesToSearch : List Int
  processedCount : Int
  deriving Repr, DecidableEq

/-- Loop of `findLowScoreMovies` over the flat movie list: a movie with
a file and a negative custom format score is appended to the matches
(and, if triggering is enabled, its ID to the pending-search list); the
processed counter is incremented and, when a positive batch size is
reached, the loop breaks. -/
def scanMovies (cfg : Config) (st : MvScanState) :
    List MovieWithFile → MvScanState
  | [] => st
  | movie :: rest =>
    if movie.hasFile then
      match movie.movieFile with
      | some movieFile =>
        if movieFile.customFormatScore < 0 then
          let st1 := { st with
            lowScoreMovies := st.lowScoreMovies.push
              { movie := movie,
                customFormatScore := movieFile.customFormatScore } }
          let st2 :=
            if cfg.triggerSearch then
              { st1 with moviesToSearch := st1.moviesToSearch ++ [movie.id] }
            else st1
          let st3 := { st2 with processedCount := st2.processedCount + 1 }
          if cfg.batchSize > 0 ∧ st3.processedCount ≥ cfg.batchSize then
            st3
          else
            scanMovies cfg st3 rest
        else scanMovies cfg st rest
      | none => scanMovies cfg st rest
    else scanMovies cfg st rest

/-- Observable outcome of one `findLowScoreMovies` run. -/
structure MovieScanOutcome where
  lowScoreMovies : GoSlice LowScoreMovie
  moviesToSearch : List Int
  error : Option String
  triggerCalls : List (List Int)
  deriving Repr, DecidableEq

/-- Embedding of `findLowScoreMovies`: fetch all movies (aborting with
an error if that fails), scan the flat list accumulating low-score
matches up to the batch limit, then, if triggering is enabled and IDs
were collected, issue one trigger call per sub-batch. -/
def findLowScoreMovies (client : RadarrClient) (cfg : Config) :
    MovieScanOutcome :=
  match client.getMovies with
  | .error e =>
    { lowScoreMovies := GoSlice.nil, moviesToSearch := [],
      error := some ("getting movies: " ++ e), triggerCalls := [] }
  | .ok movies =>
    let st := scanMovies cfg
      { lowScoreMovies := GoSlice.nil, moviesToSearch := [],
        processedCount := 0 }
      movies
    let calls :=
      if cfg.triggerSearch ∧ st.moviesToSearch.length > 0 then
        triggerBatches st.moviesToSearch
      else []
    { lowScoreMovies := st.lowScoreMovies,
      moviesToSearch := st.moviesToSearch,
      error := none,
      triggerCalls := calls }

/-! Specification-side vocabulary used to state the theorems. -/

/-- Score filter on episodes, read off the scan condition:
low-score iff the episode has a file, the file record is present and its
custom format score is negative. -/
def isLowScoreEpisode (e : Episode) : Bool :=
  e.hasFile &&
    match e.episodeFile with
    | some f => decide (f.customFormatScore < 0)
    | none => false

/-- Custom format score of an episode's file (0 when absent; only used
under `isLowScoreEpisode`). -/
def episodeScore (e : Episode) : Int :=
  match e.episodeFile with
  | some f => f.customFormatScore
  | none => 0

/-- The match record the scan builds for an eligible episode. -/
def mkEpisodeMatch (s : Series) (e : Episode) : LowScoreEpisode :=
  { series := s, episode := e, customFormatScore := episodeScore e }

/-- Eligible matches of one series' episode list, in listing order. -/
def seriesEligibleOf (s : Series) (eps : List Episode) : List LowScoreEpisode :=
  (eps.filter isLowScoreEpisode).map (mkEpisodeMatch s)

/-- Eligible matches contributed by one series, in episode listing
order; a series whose episode fetch fails contributes nothing. -/
def seriesEligible (client : SonarrClient) (s : Series) : List LowScoreEpisode :=
  match client.getEpisodes s.id with
  | .error _ => []
  | .ok eps => seriesEligibleOf s eps

/-- All eligible episode matches of a catalog, in discovery order. -/
def eligibleEpisodeMatches (client : SonarrClient) (ss : List Series) :
    List LowScoreEpisode :=
  (ss.map (seriesEligible client)).flatten

/-- Score filter on movies. -/
def isLowScoreMovie (m : MovieWithFile) : Bool :=
  m.hasFile &&
    match m.movieFile with
    | some f => decide (f.customFormatScore < 0)
    | none => false

/-- Custom format score of a movie's file (0 when absent). -/
def movieScore (m : MovieWithFile) : Int :=
  match m.movieFile with
  | some f => f.customFormatScore
  | none => 0

/-- The match record the scan builds for an eligible movie. -/
def mkMovieMatch (m : MovieWithFile) : LowScoreMovie :=
  { movie := m, customFormatScore := movieScore m }

/-- All eligible movie matches of a catalog, in discovery order. -/
def eligibleMovieMatches (movies : List MovieWithFile) : List LowScoreMovie :=
  (movies.filter isLowScoreMovie).map mkMovieMatch

/-- Series IDs fetched by a scan that stops after collecting `n` more
matches: every series up to and including the one containing the n-th
remaining match (all of them if the catalog has fewer). -/
def fetchesUpTo (client : SonarrClient) (n : Nat) : List Series → List Int
  | [] => []
  | s :: rest =>
    s.id ::
      (if n ≤ (seriesEligible client s).length then []
       else fetchesUpTo client (n - (seriesEligible client s).length) rest)

/-! Step normal forms for the loop bodies. -/

/-- After an eligible episode the inner loop either breaks with the
limit flag set or continues on the flat updated state. -/
lemma scanEpisodes_cons_eligible (cfg : Config) (s : Series)
    (st : EpScanState) (e : Episode) (f : EpisodeFile) (rest : List Episode)
    (hf : e.hasFile = true) (hef : e.episodeFile = some f) :
    f.customFormatScore < 0 →
    scanEpisodes cfg s st (e :: rest) =
      (if cfg.batchSize > 0 ∧ st.processedCount + 1 ≥ cfg.batchSize then
        { lowScoreEpisodes := st.lowScoreEpisodes.push
            { series := s, episode := e,
              customFormatScore := f.customFormatScore },
          episodesToSearch := st.episodesToSearch ++
            (if cfg.triggerSearch then [e.id] else []),
          processedCount := st.processedCount + 1,
          reachedLimit := true,
          episodeFetches := st.episodeFetches }
      else
        scanEpisodes cfg s
          { lowScoreEpisodes := st.lowScoreEpisodes.push
              { series := s, episode := e,
                customFormatScore := f.customFormatScore },
            episodesToSearch := st.episodesToSearch ++
              (if cfg.triggerSearch then [e.id] else []),
            processedCount := st.processedCount + 1,
            reachedLimit := st.reachedLimit,
            episodeFetches := st.episodeFetches }
          rest) := by
  intro hsc
  by_cases htr : cfg.triggerSearch <;>
    simp [scanEpisodes, hf, hef, hsc, htr]

/-- A non-eligible episode leaves the inner loop state untouched. -/
lemma scanEpisodes_cons_skip (cfg : Config) (s : Series)
    (st : EpScanState) (e : Episode) (rest : List Episode)
    (h : isLowScoreEpisode e = false) :
    scanEpisodes cfg s st (e :: rest) = scanEpisodes cfg s st rest := by
  by_cases hf : e.hasFile
  · cases hef : e.episodeFile with
    | none => simp [scanEpisodes, hf, hef]
    | some f =>
      have hsc : ¬ f.customFormatScore < 0 := by
        simpa [isLowScoreEpisode, hf, hef] using h
      simp [scanEpisodes, hf, hef, hsc]
  · simp [scanEpisodes, hf, Bool.not_eq_true _ ▸ hf]

/-- After an eligible movie the loop either breaks or continues on the
flat updated state. -/
lemma scanMovies_cons_eligible (cfg : Config) (st : MvScanState)
    (mv : MovieWithFile) (f : MovieFile) (rest : List MovieWithFile)
    (hf : mv.hasFile = true) (hef : mv.movieFile = some f) :
    f.customFormatScore < 0 →
    scanMovies cfg st (mv :: rest) =
      (if cfg.batchSize > 0 ∧ st.processedCount + 1 ≥ cfg.batchSize then
        { lowScoreMovies := st.lowScoreMovies.push
            { movie := mv, customFormatScore := f.customFormatScore },
          moviesToSearch := st.moviesToSearch ++
            (if cfg.triggerSearch then [mv.id] else []),
          processedCount := st.processedCount + 1 }
      else
        scanMovies cfg
          { lowScoreMovies := st.lowScoreMovies.push
              { movie := mv, customFormatScore := f.customFormatScore },
            moviesToSearch := st.moviesToSearch ++
              (if cfg.triggerSearch then [mv.id] else []),
            processedCount := st.processedCount + 1 }
          rest) := by
  intro hsc
  by_cases htr : cfg.triggerSearch <;>
    simp [scanMovies, hf, hef, hsc, htr]

/-- A non-eligible movie leaves the loop state untouched. -/
lemma scanMovies_cons_skip (cfg : Config) (st : MvScanState)
    (mv : MovieWithFile) (rest : List MovieWithFile)
    (h : isLowScoreMovie mv = false) :
    scanMovies cfg st (mv :: rest) = scanMovies cfg st rest := by
  by_cases hf : mv.hasFile
  · cases hef : mv.movieFile with
    | none => simp [scanMovies, hf, hef]
    | some f =>
      have hsc : ¬ f.customFormatScore < 0 := by
        simpa [isLowScoreMovie, hf, hef] using h
      simp [scanMovies, hf, hef, hsc]
  · simp [scanMovies, hf]

/-- A scan whose limit flag is already set returns its state at once. -/
lemma scanSeries_reachedLimit (client : SonarrClient) (cfg : Config)
    (st : EpScanState) (ss : List Series) (h : st.reachedLimit = true) :
    scanSeries client cfg st ss = st := by
  cases ss with
  | nil => rfl
  | cons s rest => simp [scanSeries, h]

/-! Lockstep invariant between matches and the pending-search list. -/

/-- Pending-search list stays the ID image of the matches (empty when
triggering is disabled) through the inner episode loop. -/
lemma scanEpisodes_lockstep (cfg : Config) (s : Series) (st : EpScanState)
    (eps : List Episode)
    (h : st.episodesToSearch =
      if cfg.triggerSearch then st.lowScoreEpisodes.elems.map fun m => m.episode.id
      else []) :
    (scanEpisodes cfg s st eps).episodesToSearch =
      if cfg.triggerSearch then
        (scanEpisodes cfg s st eps).lowScoreEpisodes.elems.map fun m => m.episode.id
      else [] := by
  induction eps generalizing st with
  | nil => simpa [scanEpisodes] using h
  | cons e rest ih =>
    by_cases hel : isLowScoreEpisode e = true
    · obtain ⟨hf, f, hef, hsc⟩ :
          e.hasFile = true ∧ ∃ f, e.episodeFile = some f ∧ f.customFormatScore < 0 := by
        revert hel
        cases hmf : e.episodeFile <;> simp [isLowScoreEpisode, hmf]
      rw [scanEpisodes_cons_eligible cfg s st e f rest hf hef hsc]
      by_cases hlim : cfg.batchSize > 0 ∧ st.processedCount + 1 ≥ cfg.batchSize
      · by_cases htr : cfg.triggerSearch <;> simp [hlim, htr, GoSlice.push, h]
      · rw [if_neg hlim]
        exact ih _ (by by_cases htr : cfg.triggerSearch <;>
          simp [htr, GoSlice.push, h])
    · rw [scanEpisodes_cons_skip cfg s st e rest (by simpa using hel)]
      exact ih st h

/-- Pending-search lockstep through the outer series loop. -/
lemma scanSeries_lockstep (client : SonarrClient) (cfg : Config)
    (st : EpScanState) (ss : List Series)
    (h : st.episodesToSearch =
      if cfg.triggerSearch then st.lowScoreEpisodes.elems.map fun m => m.episode.id
      else []) :
    (scanSeries client cfg st ss).episodesToSearch =
      if cfg.triggerSearch then
        (scanSeries client cfg st ss).lowScoreEpisodes.elems.map fun m => m.episode.id
      else [] := by
  induction ss generalizing st with
  | nil => simpa [scanSeries] using h
  | cons s rest ih =>
    by_cases hrl : st.reachedLimit
    · simpa [scanSeries, hrl] using h
    · simp only [scanSeries, hrl, if_false]
      cases hep : client.getEpisodes s.id with
      | error msg => exact ih _ h
      | ok eps => exact ih _ (scanEpisodes_lockstep cfg s _ eps h)

/-- Pending-search lockstep through the movie loop. -/
lemma scanMovies_lockstep (cfg : Config) (st : MvScanState)
    (movies : List MovieWithFile)
    (h : st.moviesToSearch =
      if cfg.triggerSearch then st.lowScoreMovies.elems.map fun m => m.movie.id
      else []) :
    (scanMovies cfg st movies).moviesToSearch =
      if cfg.triggerSearch then
        (scanMovies cfg st movies).lowScoreMovies.elems.map fun m => m.movie.id
      else [] := by
  induction movies generalizing st with
  | nil => simpa [scanMovies] using h
  | cons mv rest ih =>
    by_cases hel : isLowScoreMovie mv = true
    · obtain ⟨hf, f, hef, hsc⟩ :
          mv.hasFile = true ∧ ∃ f, mv.movieFile = some f ∧ f.customFormatScore < 0 := by
        revert hel
        cases hmf : mv.movieFile <;> simp [isLowScoreMovie, hmf]
      rw [scanMovies_cons_eligible cfg st mv f rest hf hef hsc]
      by_cases hlim : cfg.batchSize > 0 ∧ st.processedCount + 1 ≥ cfg.batchSize
      · by_cases htr : cfg.triggerSearch <;> simp [hlim, htr, GoSlice.push, h]
      · rw [if_neg hlim]
        exact ih _ (by by_cases htr : cfg.triggerSearch <;>
          simp [htr, GoSlice.push, h])
    · rw [scanMovies_cons_skip cfg st mv rest (by simpa using hel)]
      exact ih st h

/-! Nil-ness of the result slice: nil exactly when empty. -/

/-- Through the inner episode loop the match slice stays nil exactly
when it has no elements (`append` clears nil-ness as it adds). -/
lemma scanEpisodes_isNil (cfg : Config) (s : Series) (st : EpScanState)
    (eps : List Episode)
    (h : st.lowScoreEpisodes.isNil = st.lowScoreEpisodes.elems.isEmpty) :
    (scanEpisodes cfg s st eps).lowScoreEpisodes.isNil =
      (scanEpisodes cfg s st eps).lowScoreEpisodes.elems.isEmpty := by
  induction eps generalizing st with
  | nil => simpa [scanEpisodes] using h
  | cons e rest ih =>
    by_cases hel : isLowScoreEpisode e = true
    · obtain ⟨hf, f, hef, hsc⟩ :
          e.hasFile = true ∧ ∃ f, e.episodeFile = some f ∧ f.customFormatScore < 0 := by
        revert hel
        cases hmf : e.episodeFile <;> simp [isLowScoreEpisode, hmf]
      rw [scanEpisodes_cons_eligible cfg s st e f rest hf hef hsc]
      by_cases hlim : cfg.batchSize > 0 ∧ st.processedCount + 1 ≥ cfg.batchSize
      · simp [hlim, GoSlice.push]
      · rw [if_neg hlim]
        exact ih _ (by simp [GoSlice.push])
    · rw [scanEpisodes_cons_skip cfg s st e rest (by simpa using hel)]
      exact ih st h

/-- Nil-ness invariant through the outer series loop. -/
lemma scanSeries_isNil (client : SonarrClient) (cfg : Config)
    (st : EpScanState) (ss : List Series)
    (h : st.lowScoreEpisodes.isNil = st.lowScoreEpisodes.elems.isEmpty) :
    (scanSeries client cfg st ss).lowScoreEpisodes.isNil =
      (scanSeries client cfg st ss).lowScoreEpisodes.elems.isEmpty := by
  induction ss generalizing st with
  | nil => simpa [scanSeries] using h
  | cons s rest ih =>
    by_cases hrl : st.reachedLimit
    · simpa [scanSeries, hrl] using h
    · simp only [scanSeries, hrl, if_false]
      cases hep : client.getEpisodes s.id with
      | error msg => exact ih _ h
      | ok eps => exact ih _ (scanEpisodes_isNil cfg s _ eps h)

/-- Nil-ness invariant through the movie loop. -/
lemma scanMovies_isNil (cfg : Config) (st : MvScanState)
    (movies : List MovieWithFile)
    (h : st.lowScoreMovies.isNil = st.lowScoreMovies.elems.isEmpty) :
    (scanMovies cfg st movies).lowScoreMovies.isNil =
      (scanMovies cfg st movies).lowScoreMovies.elems.isEmpty := by
  induction movies generalizing st with
  | nil => simpa [scanMovies] using h
  | cons mv rest ih =>
    by_cases hel : isLowScoreMovie mv = true
    · obtain ⟨hf, f, hef, hsc⟩ :
          mv.hasFile = true ∧ ∃ f, mv.movieFile = some f ∧ f.customFormatScore < 0 := by
        revert hel
        cases hmf : mv.movieFile <;> simp [isLowScoreMovie, hmf]
      rw [scanMovies_cons_eligible cfg st mv f rest hf hef hsc]
      by_cases hlim : cfg.batchSize > 0 ∧ st.processedCount + 1 ≥ cfg.batchSize
      · simp [hlim, GoSlice.push]
      · rw [if_neg hlim]
        exact ih _ (by simp [GoSlice.push])
    · rw [scanMovies_cons_skip cfg st mv rest (by simpa using hel)]
      exact ih st h

/-! Soundness: every collected match passed the score filter. -/

/-- A well-formed episode match: its episode has a file, the file record
is present, its score is negative, and the match carries that score. -/
def SoundEpisodeMatch (m : LowScoreEpisode) : Prop :=
  m.episode.hasFile = true ∧ ∃ f, m.episode.episodeFile = some f ∧
    f.customFormatScore < 0 ∧ m.customFormatScore = f.customFormatScore

/-- A well-formed movie match. -/
def SoundMovieMatch (m : LowScoreMovie) : Prop :=
  m.movie.hasFile = true ∧ ∃ f, m.movie.movieFile = some f ∧
    f.customFormatScore < 0 ∧ m.customFormatScore = f.customFormatScore

/-- Every match the inner episode loop adds is well-formed. -/
lemma scanEpisodes_sound (cfg : Config) (s : Series) (st : EpScanState)
    (eps : List Episode)
    (h : ∀ m ∈ st.lowScoreEpisodes.elems, SoundEpisodeMatch m) :
    ∀ m ∈ (scanEpisodes cfg s st eps).lowScoreEpisodes.elems,
      SoundEpisodeMatch m := by
  induction eps generalizing st with
  | nil => simpa [scanEpisodes] using h
  | cons e rest ih =>
    by_cases hel : isLowScoreEpisode e = true
    · obtain ⟨hf, f, hef, hsc⟩ :
          e.hasFile = true ∧ ∃ f, e.episodeFile = some f ∧ f.customFormatScore < 0 := by
        revert hel
        cases hmf : e.episodeFile <;> simp [isLowScoreEpisode, hmf]
      have hnew : ∀ m ∈ (st.lowScoreEpisodes.push
          { series := s, episode := e,
            customFormatScore := f.customFormatScore }).elems,
          SoundEpisodeMatch m := by
        intro m hm
        rcases (by simpa [GoSlice.push] using hm) with hm' | hm'
        · exact h m hm'
        · subst hm'
          exact ⟨hf, f, hef, hsc, rfl⟩
      rw [scanEpisodes_cons_eligible cfg s st e f rest hf hef hsc]
      by_cases hlim : cfg.batchSize > 0 ∧ st.processedCount + 1 ≥ cfg.batchSize
      · rw [if_pos hlim]
        exact hnew
      · rw [if_neg hlim]
        exact ih _ hnew
    · rw [scanEpisodes_cons_skip cfg s st e rest (by simpa using hel)]
      exact ih st h

/-- Every match the outer series loop adds is well-formed. -/
lemma scanSeries_sound (client : SonarrClient) (cfg : Config)
    (st : EpScanState) (ss : List Series)
    (h : ∀ m ∈ st.lowScoreEpisodes.elems, SoundEpisodeMatch m) :
    ∀ m ∈ (scanSeries client cfg st ss).lowScoreEpisodes.elems,
      SoundEpisodeMatch m := by
  induction ss generalizing st with
  | nil => simpa [scanSeries] using h
  | cons s rest ih =>
    by_cases hrl : st.reachedLimit
    · simpa [scanSeries, hrl] using h
    · simp only [scanSeries, hrl, if_false]
      cases hep : client.getEpisodes s.id with
      | error msg => exact ih _ h
      | ok eps => exact ih _ (scanEpisodes_sound cfg s _ eps h)

/-- Every match the movie loop adds is well-formed. -/
lemma scanMovies_sound (cfg : Config) (st : MvScanState)
    (movies : List MovieWithFile)
    (h : ∀ m ∈ st.lowScoreMovies.elems, SoundMovieMatch m) :
    ∀ m ∈ (scanMovies cfg st movies).lowScoreMovies.elems,
      SoundMovieMatch m := by
  induction movies generalizing st with
  | nil => simpa [scanMovies] using h
  | cons mv rest ih =>
    by_cases hel : isLowScoreMovie mv = true
    · obtain ⟨hf, f, hef, hsc⟩ :
          mv.hasFile = true ∧ ∃ f, mv.movieFile = some f ∧ f.customFormatScore < 0 := by
        revert hel
        cases hmf : mv.movieFile <;> simp [isLowScoreMovie, hmf]
      have hnew : ∀ m ∈ (st.lowScoreMovies.push
          { movie := mv, customFormatScore := f.customFormatScore }).elems,
          SoundMovieMatch m := by
        intro m hm
        rcases (by simpa [GoSlice.push] using hm) with hm' | hm'
        · exact h m hm'
        · subst hm'
          exact ⟨hf, f, hef, hsc, rfl⟩
      rw [scanMovies_cons_eligible cfg st mv f rest hf hef hsc]
      by_cases hlim : cfg.batchSize > 0 ∧ st.processedCount + 1 ≥ cfg.batchSize
      · rw [if_pos hlim]
        exact hnew
      · rw [if_neg hlim]
        exact ih _ hnew
    · rw [scanMovies_cons_skip cfg st mv rest (by simpa using hel)]
      exact ih st h

/-! Exact characterization of the scan under a positive batch size. -/

/-- Unfolding of the per-series eligible list at an eligible episode. -/
lemma seriesEligibleOf_cons_eligible (s : Series) (e : Episode)
    (f : EpisodeFile) (rest : List Episode)
    (hf : e.hasFile = true) (hef : e.episodeFile = some f)
    (hsc : f.customFormatScore < 0) :
    seriesEligibleOf s (e :: rest) =
      { series := s, episode := e, customFormatScore := f.customFormatScore } ::
        seriesEligibleOf s rest := by
  simp [seriesEligibleOf, isLowScoreEpisode, hf, hef, hsc, mkEpisodeMatch,
    episodeScore]

/-- With a positive batch size and `n` matches of budget left, the inner
episode loop appends exactly the first `n` eligible matches of the list
(fewer if the list has fewer), counts them, sets the limit flag iff the
list filled the budget, and fetches nothing. -/
lemma scanEpisodes_limited (cfg : Config) (s : Series) (st : EpScanState)
    (eps : List Episode) (n : Nat)
    (hpos : 0 < cfg.batchSize)
    (hbudget : st.processedCount + (n : Int) = cfg.batchSize)
    (hn : 0 < n) (hrl : st.reachedLimit = false) :
    (scanEpisodes cfg s st eps).lowScoreEpisodes.elems
        = st.lowScoreEpisodes.elems ++ (seriesEligibleOf s eps).take n
    ∧ (scanEpisodes cfg s st eps).episodesToSearch
        = st.episodesToSearch ++
          (if cfg.triggerSearch then
            ((seriesEligibleOf s eps).take n).map fun m => m.episode.id
          else [])
    ∧ (scanEpisodes cfg s st eps).processedCount
        = st.processedCount + ((min (seriesEligibleOf s eps).length n : Nat) : Int)
    ∧ (scanEpisodes cfg s st eps).reachedLimit
        = decide (n ≤ (seriesEligibleOf s eps).length)
    ∧ (scanEpisodes cfg s st eps).episodeFetches = st.episodeFetches := by
  induction eps generalizing st n with
  | nil =>
    have : ¬ (n ≤ 0) := by omega
    simp [scanEpisodes, seriesEligibleOf, this, hrl]
  | cons e rest ih =>
    by_cases hel : isLowScoreEpisode e = true
    · obtain ⟨hf, f, hef, hsc⟩ :
          e.hasFile = true ∧ ∃ f, e.episodeFile = some f ∧ f.customFormatScore < 0 := by
        revert hel
        cases hmf : e.episodeFile <;> simp [isLowScoreEpisode, hmf]
      rw [scanEpisodes_cons_eligible cfg s st e f rest hf hef hsc,
        seriesEligibleOf_cons_eligible s e f rest hf hef hsc]
      rcases Nat.lt_or_ge 1 n with hn2 | hn1
      · -- budget not yet exhausted by this match: the loop continues
        rw [if_neg (by omega)]
        obtain ⟨h1, h2, h3, h4, h5⟩ := ih
          { lowScoreEpisodes := st.lowScoreEpisodes.push
              { series := s, episode := e,
                customFormatScore := f.customFormatScore },
            episodesToSearch := st.episodesToSearch ++
              (if cfg.triggerSearch then [e.id] else []),
            processedCount := st.processedCount + 1,
            reachedLimit := st.reachedLimit,
            episodeFetches := st.episodeFetches }
          (n - 1) (by push_cast; omega) (by omega) hrl
        refine ⟨?_, ?_, ?_, ?_, ?_⟩
        · rw [h1]
          simp only [GoSlice.push]
          rw [List.append_assoc]
          congr 1
          have : n = (n - 1) + 1 := by omega
          rw [this, List.take_succ_cons]
          simp
        · rw [h2]
          by_cases htr : cfg.triggerSearch
          · simp only [htr, if_true]
            rw [List.append_assoc]
            congr 1
            have : n = (n - 1) + 1 := by omega
            rw [this, List.take_succ_cons]
            simp
          · simp [htr]
        · rw [h3]
          simp only [List.length_cons]
          push_cast
          omega
        · rw [h4]
          rw [decide_eq_decide]
          simp only [List.length_cons]
          omega
        · rw [h5]
      · -- this match fills the budget: the loop breaks with the flag set
        have hn1' : n = 1 := by omega
        subst hn1'
        rw [if_pos ⟨hpos, by omega⟩]
        refine ⟨?_, ?_, ?_, ?_, rfl⟩
        · simp [GoSlice.push]
        · by_cases htr : cfg.triggerSearch <;> simp [htr]
        · simp only [List.length_cons]
          have : min ((seriesEligibleOf s rest).length + 1) 1 = 1 := by omega
          rw [this]
          push_cast
          ring
        · simp
    · rw [scanEpisodes_cons_skip cfg s st e rest (by simpa using hel)]
      have heq : seriesEligibleOf s (e :: rest) = seriesEligibleOf s rest := by
        simp only [Bool.not_eq_true] at hel
        simp [seriesEligibleOf, hel]
      rw [heq]
      exact ih st n hbudget hn hrl

/-- The catalog-wide eligible list unfolds series by series. -/
lemma eligibleEpisodeMatches_cons (client : SonarrClient) (s : Series)
    (rest : List Series) :
    eligibleEpisodeMatches client (s :: rest) =
      seriesEligible client s ++ eligibleEpisodeMatches client rest := by
  simp [eligibleEpisodeMatches]

/-- With a positive batch size and `n` matches of budget left, the outer
series loop appends exactly the first `n` eligible matches of the
catalog, counts them, sets the limit flag iff the catalog filled the
budget, and fetches exactly the series up to the one containing the
`n`-th match. -/
lemma scanSeries_limited (client : SonarrClient) (cfg : Config)
    (st : EpScanState) (ss : List Series) (n : Nat)
    (hpos : 0 < cfg.batchSize)
    (hbudget : st.processedCount + (n : Int) = cfg.batchSize)
    (hn : 0 < n) (hrl : st.reachedLimit = false) :
    (scanSeries client cfg st ss).lowScoreEpisodes.elems
        = st.lowScoreEpisodes.elems ++ (eligibleEpisodeMatches client ss).take n
    ∧ (scanSeries client cfg st ss).episodesToSearch
        = st.episodesToSearch ++
          (if cfg.triggerSearch then
            ((eligibleEpisodeMatches client ss).take n).map fun m => m.episode.id
          else [])
    ∧ (scanSeries client cfg st ss).processedCount
        = st.processedCount +
          ((min (eligibleEpisodeMatches client ss).length n : Nat) : Int)
    ∧ (scanSeries client cfg st ss).reachedLimit
        = decide (n ≤ (eligibleEpisodeMatches client ss).length)
    ∧ (scanSeries client cfg st ss).episodeFetches
        = st.episodeFetches ++ fetchesUpTo client n ss := by
  induction ss generalizing st n with
  | nil =>
    have : ¬ (n ≤ 0) := by omega
    simp [scanSeries, eligibleEpisodeMatches, fetchesUpTo, this, hrl]
  | cons s rest ih =>
    rw [eligibleEpisodeMatches_cons]
    simp only [scanSeries]
    rw [if_neg (by simp [hrl])]
    cases hep : client.getEpisodes s.id with
    | error msg =>
      have hse : seriesEligible client s = [] := by simp [seriesEligible, hep]
      obtain ⟨h1, h2, h3, h4, h5⟩ := ih
        { st with episodeFetches := st.episodeFetches ++ [s.id] } n hbudget hn hrl
      refine ⟨by simpa [hse] using h1, ?_, by simpa [hse] using h3,
        by simpa [hse] using h4, ?_⟩
      · simpa [hse] using h2
      · rw [h5]
        simp only [fetchesUpTo, hse, List.length_nil]
        rw [if_neg (by omega)]
        simp
    | ok eps =>
      have hse : seriesEligible client s = seriesEligibleOf s eps := by
        simp [seriesEligible, hep]
      obtain ⟨h1, h2, h3, h4, h5⟩ := scanEpisodes_limited cfg s
        { st with episodeFetches := st.episodeFetches ++ [s.id] } eps n
        hpos hbudget hn hrl
      rcases le_or_lt n (seriesEligibleOf s eps).length with hfill | hpart
      · -- this series fills the remaining budget: the scan stops here
        have hstop : (scanEpisodes cfg s
            { st with episodeFetches := st.episodeFetches ++ [s.id] }
            eps).reachedLimit = true := by
          rw [h4]
          simpa using hfill
        dsimp only
        rw [scanSeries_reachedLimit client cfg _ rest hstop]
        have htake : (seriesEligibleOf s eps ++
            eligibleEpisodeMatches client rest).take n =
            (seriesEligibleOf s eps).take n := by
          rw [List.take_append_eq_append_take]
          rw [Nat.sub_eq_zero_of_le hfill]
          simp
        refine ⟨by rw [h1]; simp [hse, htake], ?_, ?_, ?_, ?_⟩
        · rw [h2, hse, htake]
        · rw [h3, hse]
          congr 2
          simp only [List.length_append]
          omega
        · rw [h4, hse, decide_eq_decide]
          simp only [List.length_append]
          omega
        · rw [h5]
          simp only [fetchesUpTo, hse]
          rw [if_pos hfill]
      · -- this series leaves budget: the scan continues on the rest
        have hcont : (scanEpisodes cfg s
            { st with episodeFetches := st.episodeFetches ++ [s.id] }
            eps).reachedLimit = false := by
          rw [h4]
          simpa using Nat.not_le.mpr hpart
        obtain ⟨g1, g2, g3, g4, g5⟩ := ih
          (scanEpisodes cfg s
            { st with episodeFetches := st.episodeFetches ++ [s.id] } eps)
          (n - (seriesEligibleOf s eps).length)
          (by rw [h3]; push_cast; omega) (by omega) hcont
        have htake : (seriesEligibleOf s eps ++
            eligibleEpisodeMatches client rest).take n =
            seriesEligibleOf s eps ++
              (eligibleEpisodeMatches client rest).take
                (n - (seriesEligibleOf s eps).length) := by
          have hlen : (seriesEligibleOf s eps).length ≤ n := Nat.le_of_lt hpart
          rw [List.take_append_eq_append_take, List.take_of_length_le hlen]
        refine ⟨?_, ?_, ?_, ?_, ?_⟩
        · rw [g1, h1, hse, htake]
          simp [List.append_assoc]
          omega
        · rw [g2, h2, hse, htake]
          by_cases htr : cfg.triggerSearch
          · simp [htr, List.append_assoc]
            omega
          · simp [htr]
        · rw [g3, h3, hse]
          push_cast
          simp only [List.length_append]
          omega
        · rw [g4, hse, decide_eq_decide]
          simp only [List.length_append]
          omega
        · rw [g5, h5]
          simp only [fetchesUpTo, hse]
          rw [if_neg (by omega)]
          simp

/-- Unfolding of the eligible movie list at an eligible movie. -/
lemma eligibleMovieMatches_cons_eligible (mv : MovieWithFile) (f : MovieFile)
    (rest : List MovieWithFile)
    (hf : mv.hasFile = true) (hef : mv.movieFile = some f)
    (hsc : f.customFormatScore < 0) :
    eligibleMovieMatches (mv :: rest) =
      { movie := mv, customFormatScore := f.customFormatScore } ::
        eligibleMovieMatches rest := by
  simp [eligibleMovieMatches, isLowScoreMovie, hf, hef, hsc, mkMovieMatch,
    movieScore]

/-- With a positive batch size and `n` matches of budget left, the movie
loop appends exactly the first `n` eligible matches of the list (fewer
if the list has fewer) and collects their IDs when triggering is
enabled. -/
lemma scanMovies_limited (cfg : Config) (st : MvScanState)
    (movies : List MovieWithFile) (n : Nat)
    (hpos : 0 < cfg.batchSize)
    (hbudget : st.processedCount + (n : Int) = cfg.batchSize)
    (hn : 0 < n) :
    (scanMovies cfg st movies).lowScoreMovies.elems
        = st.lowScoreMovies.elems ++ (eligibleMovieMatches movies).take n
    ∧ (scanMovies cfg st movies).moviesToSearch
        = st.moviesToSearch ++
          (if cfg.triggerSearch then
            ((eligibleMovieMatches movies).take n).map fun m => m.movie.id
          else []) := by
  induction movies generalizing st n with
  | nil => simp [scanMovies, eligibleMovieMatches]
  | cons mv rest ih =>
    by_cases hel : isLowScoreMovie mv = true
    · obtain ⟨hf, f, hef, hsc⟩ :
          mv.hasFile = true ∧ ∃ f, mv.movieFile = some f ∧ f.customFormatScore < 0 := by
        revert hel
        cases hmf : mv.movieFile <;> simp [isLowScoreMovie, hmf]
      rw [scanMovies_cons_eligible cfg st mv f rest hf hef hsc,
        eligibleMovieMatches_cons_eligible mv f rest hf hef hsc]
      rcases Nat.lt_or_ge 1 n with hn2 | hn1
      · rw [if_neg (by omega)]
        obtain ⟨h1, h2⟩ := ih
          { lowScoreMovies := st.lowScoreMovies.push
              { movie := mv, customFormatScore := f.customFormatScore },
            moviesToSearch := st.moviesToSearch ++
              (if cfg.triggerSearch then [mv.id] else []),
            processedCount := st.processedCount + 1 }
          (n - 1) (by push_cast; omega) (by omega)
        constructor
        · rw [h1]
          simp only [GoSlice.push]
          rw [List.append_assoc]
          congr 1
          have : n = (n - 1) + 1 := by omega
          rw [this, List.take_succ_cons]
          simp
        · rw [h2]
          by_cases htr : cfg.triggerSearch
          · simp only [htr, if_true]
            rw [List.append_assoc]
            congr 1
            have : n = (n - 1) + 1 := by omega
            rw [this, List.take_succ_cons]
            simp
          · simp [htr]
      · have hn1' : n = 1 := by omega
        subst hn1'
        rw [if_pos ⟨hpos, by omega⟩]
        constructor
        · simp [GoSlice.push]
        · by_cases htr : cfg.triggerSearch <;> simp [htr]
    · rw [scanMovies_cons_skip cfg st mv rest (by simpa using hel)]
      have heq : eligibleMovieMatches (mv :: rest) = eligibleMovieMatches rest := by
        simp only [Bool.not_eq_true] at hel
        simp [eligibleMovieMatches, hel]
      rw [heq]
      exact ih st n hbudget hn

/-! Exact characterization of the scan with batch size 0 (unlimited). -/

/-- Without a positive batch size the inner episode loop appends every
eligible match of the list and never sets the limit flag. -/
lemma scanEpisodes_unlimited (cfg : Config) (s : Series) (st : EpScanState)
    (eps : List Episode) (hneg : cfg.batchSize ≤ 0) :
    (scanEpisodes cfg s st eps).lowScoreEpisodes.elems
        = st.lowScoreEpisodes.elems ++ seriesEligibleOf s eps
    ∧ (scanEpisodes cfg s st eps).episodesToSearch
        = st.episodesToSearch ++
          (if cfg.triggerSearch then
            (seriesEligibleOf s eps).map fun m => m.episode.id
          else [])
    ∧ (scanEpisodes cfg s st eps).reachedLimit = st.reachedLimit
    ∧ (scanEpisodes cfg s st eps).episodeFetches = st.episodeFetches := by
  induction eps generalizing st with
  | nil => simp [scanEpisodes, seriesEligibleOf]
  | cons e rest ih =>
    by_cases hel : isLowScoreEpisode e = true
    · obtain ⟨hf, f, hef, hsc⟩ :
          e.hasFile = true ∧ ∃ f, e.episodeFile = some f ∧ f.customFormatScore < 0 := by
        revert hel
        cases hmf : e.episodeFile <;> simp [isLowScoreEpisode, hmf]
      rw [scanEpisodes_cons_eligible cfg s st e f rest hf hef hsc,
        seriesEligibleOf_cons_eligible s e f rest hf hef hsc]
      rw [if_neg (by omega)]
      obtain ⟨h1, h2, h3, h4⟩ := ih
        { lowScoreEpisodes := st.lowScoreEpisodes.push
            { series := s, episode := e,
              customFormatScore := f.customFormatScore },
          episodesToSearch := st.episodesToSearch ++
            (if cfg.triggerSearch then [e.id] else []),
          processedCount := st.processedCount + 1,
          reachedLimit := st.reachedLimit,
          episodeFetches := st.episodeFetches }
      refine ⟨?_, ?_, h3, h4⟩
      · rw [h1]
        simp [GoSlice.push]
      · rw [h2]
        by_cases htr : cfg.triggerSearch <;> simp [htr]
    · rw [scanEpisodes_cons_skip cfg s st e rest (by simpa using hel)]
      have heq : seriesEligibleOf s (e :: rest) = seriesEligibleOf s rest := by
        simp only [Bool.not_eq_true] at hel
        simp [seriesEligibleOf, hel]
      rw [heq]
      exact ih st

/-- Without a positive batch size the outer series loop appends every
eligible match of the catalog and fetches every series. -/
lemma scanSeries_unlimited (client : SonarrClient) (cfg : Config)
    (st : EpScanState) (ss : List Series) (hneg : cfg.batchSize ≤ 0)
    (hrl : st.reachedLimit = false) :
    (scanSeries client cfg st ss).lowScoreEpisodes.elems
        = st.lowScoreEpisodes.elems ++ eligibleEpisodeMatches client ss
    ∧ (scanSeries client cfg st ss).episodesToSearch
        = st.episodesToSearch ++
          (if cfg.triggerSearch then
            (eligibleEpisodeMatches client ss).map fun m => m.episode.id
          else [])
    ∧ (scanSeries client cfg st ss).episodeFetches
        = st.episodeFetches ++ ss.map fun s => s.id := by
  induction ss generalizing st with
  | nil => simp [scanSeries, eligibleEpisodeMatches, hrl]
  | cons s rest ih =>
    rw [eligibleEpisodeMatches_cons]
    simp only [scanSeries]
    rw [if_neg (by simp [hrl])]
    cases hep : client.getEpisodes s.id with
    | error msg =>
      have hse : seriesEligible client s = [] := by simp [seriesEligible, hep]
      obtain ⟨h1, h2, h3⟩ := ih
        { st with episodeFetches := st.episodeFetches ++ [s.id] } hrl
      refine ⟨by simpa [hse] using h1, ?_, ?_⟩
      · simpa [hse] using h2
      · rw [h3]
        simp
    | ok eps =>
      have hse : seriesEligible client s = seriesEligibleOf s eps := by
        simp [seriesEligible, hep]
      obtain ⟨h1, h2, h3, h4⟩ := scanEpisodes_unlimited cfg s
        { st with episodeFetches := st.episodeFetches ++ [s.id] } eps hneg
      dsimp only
      obtain ⟨g1, g2, g3⟩ := ih
        (scanEpisodes cfg s
          { st with episodeFetches := st.episodeFetches ++ [s.id] } eps)
        (by rw [h3]; exact hrl)
      refine ⟨?_, ?_, ?_⟩
      · rw [g1, h1, hse]
        simp [List.append_assoc]
      · rw [g2, h2, hse]
        by_cases htr : cfg.triggerSearch <;> simp [htr, List.append_assoc]
      · rw [g3, h4]
        simp

/-- Without a positive batch size the movie loop appends every eligible
match of the list. -/
lemma scanMovies_unlimited (cfg : Config) (st : MvScanState)
    (movies : List MovieWithFile) (hneg : cfg.batchSize ≤ 0) :
    (scanMovies cfg st movies).lowScoreMovies.elems
        = st.lowScoreMovies.elems ++ eligibleMovieMatches movies
    ∧ (scanMovies cfg st movies).moviesToSearch
        = st.moviesToSearch ++
          (if cfg.triggerSearch then
            (eligibleMovieMatches movies).map fun m => m.movie.id
          else []) := by
  induction movies generalizing st with
  | nil => simp [scanMovies, eligibleMovieMatches]
  | cons mv rest ih =>
    by_cases hel : isLowScoreMovie mv = true
    · obtain ⟨hf, f, hef, hsc⟩ :
          mv.hasFile = true ∧ ∃ f, mv.movieFile = some f ∧ f.customFormatScore < 0 := by
        revert hel
        cases hmf : mv.movieFile <;> simp [isLowScoreMovie, hmf]
      rw [scanMovies_cons_eligible cfg st mv f rest hf hef hsc,
        eligibleMovieMatches_cons_eligible mv f rest hf hef hsc]
      rw [if_neg (by omega)]
      obtain ⟨h1, h2⟩ := ih
        { lowScoreMovies := st.lowScoreMovies.push
            { movie := mv, customFormatScore := f.customFormatScore },
          moviesToSearch := st.moviesToSearch ++
            (if cfg.triggerSearch then [mv.id] else []),
          processedCount := st.processedCount + 1 }
      constructor
      · rw [h1]
        simp [GoSlice.push]
      · rw [h2]
        by_cases htr : cfg.triggerSearch <;> simp [htr]
    · rw [scanMovies_cons_skip cfg st mv rest (by simpa using hel)]
      have heq : eligibleMovieMatches (mv :: rest) = eligibleMovieMatches rest := by
        simp only [Bool.not_eq_true] at hel
        simp [eligibleMovieMatches, hel]
      rw [heq]
      exact ih st

/-! Properties of the sub-batching loop. -/

/-- Concatenating the issued sub-batches recovers the ID list: all IDs
are covered, without duplication, in the original order. -/
lemma triggerBatches_flatten (ids : List Int) :
    (triggerBatches ids).flatten = ids := by
  induction ids using triggerBatches.induct with
  | case1 => simp [triggerBatches]
  | case2 id0 restIds ih =>
    rw [triggerBatches]
    simp [ih]

/-- The number of sub-batches is the length divided by the chunk size,
rounded up. -/
lemma triggerBatches_length (ids : List Int) :
    (triggerBatches ids).length =
      (ids.length + (DefaultSearchBatchSize - 1)) / DefaultSearchBatchSize := by
  induction ids using triggerBatches.induct with
  | case1 => simp [triggerBatches, DefaultSearchBatchSize]
  | case2 id0 restIds ih =>
    rw [triggerBatches]
    simp only [List.length_cons, ih, List.length_drop]
    simp only [DefaultSearchBatchSize]
    omega

/-- The `i`-th sub-batch is the slice `ids[i*C : i*C + C]`. -/
lemma triggerBatches_getD (ids : List Int) :
    ∀ i, i < (triggerBatches ids).length →
      (triggerBatches ids).getD i [] =
        (ids.drop (i * DefaultSearchBatchSize)).take DefaultSearchBatchSize := by
  induction ids using triggerBatches.induct with
  | case1 => simp [triggerBatches]
  | case2 id0 restIds ih =>
    intro i hi
    rw [triggerBatches]
    cases i with
    | zero => simp
    | succ j =>
      rw [triggerBatches] at hi
      simp only [List.length_cons, Nat.succ_lt_succ_iff] at hi
      simp only [List.getD_cons_succ]
      rw [ih j hi, List.drop_drop]
      congr 2
      ring

/-- Every issued sub-batch is non-empty and holds at most
`DefaultSearchBatchSize` IDs. -/
lemma triggerBatches_mem (ids : List Int) :
    ∀ b ∈ triggerBatches ids,
      0 < b.length ∧ b.length ≤ DefaultSearchBatchSize := by
  induction ids using triggerBatches.induct with
  | case1 => simp [triggerBatches]
  | case2 id0 restIds ih =>
    intro b hb
    rw [triggerBatches] at hb
    rcases List.mem_cons.mp hb with hb1 | hb2
    · subst hb1
      simp only [List.length_take, List.length_cons]
      constructor
      · simp [DefaultSearchBatchSize]
      · omega
    · exact ih b hb2

/-- A non-empty list of at most one chunk's worth of IDs yields exactly
one sub-batch. -/
lemma triggerBatches_of_short (ids : List Int) (hne : ids ≠ [])
    (hlen : ids.length ≤ DefaultSearchBatchSize) :
    triggerBatches ids = [ids] := by
  cases ids with
  | nil => exact absurd rfl hne
  | cons id0 restIds =>
    rw [triggerBatches, List.take_of_length_le hlen,
      List.drop_eq_nil_of_le hlen]
    rw [triggerBatches]

/-- A non-empty ID list yields at least one sub-batch. -/
lemma triggerBatches_ne_nil (ids : List Int) (hne : ids ≠ []) :
    triggerBatches ids ≠ [] := by
  cases ids with
  | nil => exact absurd rfl hne
  | cons id0 restIds =>
    rw [triggerBatches]
    exact List.cons_ne_nil _ _

/-- The initial loop state of the episode scan
(`var lowScoreEpisodes ...; var episodesToSearch ...; processedCount := 0`). -/
def initEpState : EpScanState :=
  { lowScoreEpisodes := GoSlice.nil, episodesToSearch := [],
    processedCount := 0, reachedLimit := false, episodeFetches := [] }

/-- The initial loop state of the movie scan. -/
def initMvState : MvScanState :=
  { lowScoreMovies := GoSlice.nil, moviesToSearch := [], processedCount := 0 }

/-- Unfolding of `findLowScoreEpisodes` when the series fetch succeeds. -/
lemma findLowScoreEpisodes_ok (client : SonarrClient) (cfg : Config)
    (ss : List Series) (h : client.getSeries = .ok ss) :
    findLowScoreEpisodes client cfg =
      { lowScoreEpisodes := (scanSeries client cfg initEpState ss).lowScoreEpisodes,
        episodesToSearch := (scanSeries client cfg initEpState ss).episodesToSearch,
        error := none,
        episodeFetches := (scanSeries client cfg initEpState ss).episodeFetches,
        triggerCalls :=
          if cfg.triggerSearch ∧
              (scanSeries client cfg initEpState ss).episodesToSearch.length > 0 then
            triggerBatches (scanSeries client cfg initEpState ss).episodesToSearch
          else [] } := by
  simp [findLowScoreEpisodes, h, initEpState]

/-- Unfolding of `findLowScoreMovies` when the movie fetch succeeds. -/
lemma findLowScoreMovies_ok (client : RadarrClient) (cfg : Config)
    (ms : List MovieWithFile) (h : client.getMovies = .ok ms) :
    findLowScoreMovies client cfg =
      { lowScoreMovies := (scanMovies cfg initMvState ms).lowScoreMovies,
        moviesToSearch := (scanMovies cfg initMvState ms).moviesToSearch,
        error := none,
        triggerCalls :=
          if cfg.triggerSearch ∧
              (scanMovies cfg initMvState ms).moviesToSearch.length > 0 then
            triggerBatches (scanMovies cfg initMvState ms).moviesToSearch
          else [] } := by
  simp [findLowScoreMovies, h, initMvState]

/-! Claim theorems. -/

/-- C4: `findLowScoreEpisodes` (resp. `findLowScoreMovies`) returns a
non-nil error iff the top-level listing call `GetSeries` (resp.
`GetMovies`) fails; per-series episode-fetch failures and per-sub-batch
trigger failures never surface in the returned error. -/
theorem error_iff_top_level_listing_fails (sc : SonarrClient)
    (rc : RadarrClient) (cfg : Config) :
    ((findLowScoreEpisodes sc cfg).error ≠ none ↔
      ∃ e, sc.getSeries = .error e)
    ∧ ((findLowScoreMovies rc cfg).error ≠ none ↔
      ∃ e, rc.getMovies = .error e) := by
  constructor
  · cases hs : sc.getSeries with
    | error e => simp [findLowScoreEpisodes, hs]
    | ok ss => simp [findLowScoreEpisodes, hs]
  · cases hm : rc.getMovies with
    | error e => simp [findLowScoreMovies, hm]
    | ok ms => simp [findLowScoreMovies, hm]

/-- C6: with the trigger-search flag false no search-trigger call is
issued by either engine, regardless of match count; and with an empty
collected identifier list no call is issued either. -/
theorem no_trigger_calls_when_disabled_or_empty (sc : SonarrClient)
    (rc : RadarrClient) (cfg cfg' : Config)
    (h : cfg.triggerSearch = false) :
    (findLowScoreEpisodes sc cfg).triggerCalls = []
    ∧ (findLowScoreMovies rc cfg).triggerCalls = []
    ∧ ((findLowScoreEpisodes sc cfg').episodesToSearch = [] →
        (findLowScoreEpisodes sc cfg').triggerCalls = [])
    ∧ ((findLowScoreMovies rc cfg').moviesToSearch = [] →
        (findLowScoreMovies rc cfg').triggerCalls = []) := by
  refine ⟨?_, ?_, ?_, ?_⟩
  · cases hs : sc.getSeries with
    | error e => simp [findLowScoreEpisodes, hs]
    | ok ss => simp [findLowScoreEpisodes, hs, h]
  · cases hm : rc.getMovies with
    | error e => simp [findLowScoreMovies, hm]
    | ok ms => simp [findLowScoreMovies, hm, h]
  · intro hempty
    cases hs : sc.getSeries with
    | error e => simp [findLowScoreEpisodes, hs]
    | ok ss =>
      rw [findLowScoreEpisodes_ok sc cfg' ss hs] at hempty ⊢
      simp only at hempty ⊢
      rw [if_neg (by simp [hempty])]
  · intro hempty
    cases hm : rc.getMovies with
    | error e => simp [findLowScoreMovies, hm]
    | ok ms =>
      rw [findLowScoreMovies_ok rc cfg' ms hm] at hempty ⊢
      simp only at hempty ⊢
      rw [if_neg (by simp [hempty])]

/-- C6 witness: at a concrete catalog holding one low-score episode and
one low-score movie, the disabled-trigger run issues no calls, and the
empty-collection runs issue no calls. -/
theorem no_trigger_calls_when_disabled_or_empty_witness :
    (findLowScoreEpisodes
      ⟨Except.ok [⟨1, "A"⟩], fun _ =>
        Except.ok [⟨101, 1, "E1", 1, 1, true, some ⟨11, -5⟩⟩]⟩
      ⟨false, 0⟩).triggerCalls = []
    ∧ (findLowScoreMovies
      ⟨Except.ok [⟨201, "M1", 1999, true, some ⟨21, -7⟩⟩]⟩
      ⟨false, 0⟩).triggerCalls = [] := by
  have h := no_trigger_calls_when_disabled_or_empty
    ⟨Except.ok [⟨1, "A"⟩], fun _ =>
      Except.ok [⟨101, 1, "E1", 1, 1, true, some ⟨11, -5⟩⟩]⟩
    ⟨Except.ok [⟨201, "M1", 1999, true, some ⟨21, -7⟩⟩]⟩
    ⟨false, 0⟩ ⟨false, 0⟩ rfl
  exact ⟨h.1, h.2.1⟩

/-- C9: at the end of every scan the pending-search ID list is exactly
the ID image of the match list, position by position, when trigger
search is enabled, and empty when it is disabled; in particular the two
lists always have the same length in the enabled case. -/
theorem pending_search_matches_lockstep (sc : SonarrClient)
    (rc : RadarrClient) (cfg : Config) :
    (findLowScoreEpisodes sc cfg).episodesToSearch =
      (if cfg.triggerSearch then
        (findLowScoreEpisodes sc cfg).lowScoreEpisodes.elems.map
          fun m => m.episode.id
      else [])
    ∧ (findLowScoreMovies rc cfg).moviesToSearch =
      (if cfg.triggerSearch then
        (findLowScoreMovies rc cfg).lowScoreMovies.elems.map
          fun m => m.movie.id
      else []) := by
  constructor
  · cases hs : sc.getSeries with
    | error e => simp [findLowScoreEpisodes, hs, GoSlice.nil]
    | ok ss =>
      rw [findLowScoreEpisodes_ok sc cfg ss hs]
      simp only
      exact scanSeries_lockstep sc cfg initEpState ss
        (by by_cases htr : cfg.triggerSearch <;> simp [initEpState, htr, GoSlice.nil])
  · cases hm : rc.getMovies with
    | error e => simp [findLowScoreMovies, hm, GoSlice.nil]
    | ok ms =>
      rw [findLowScoreMovies_ok rc cfg ms hm]
      simp only
      exact scanMovies_lockstep cfg initMvState ms
        (by by_cases htr : cfg.triggerSearch <;> simp [initMvState, htr, GoSlice.nil])

/-- C1: with batch size N > 0 and at least N eligible items in
discovery order, both engines return exactly the first N eligible items
in discovery order, and the episode scan stops immediately: the series
fetched are exactly those up to and including the one containing the
N-th match (`fetchesUpTo`), so nothing after the N-th match is fetched
or evaluated. -/
theorem batch_limit_first_n_matches (sc : SonarrClient) (rc : RadarrClient)
    (cfg : Config) (ss : List Series) (ms : List MovieWithFile)
    (hs : sc.getSeries = .ok ss) (hm : rc.getMovies = .ok ms)
    (hpos : 0 < cfg.batchSize)
    (hMep : cfg.batchSize.toNat ≤ (eligibleEpisodeMatches sc ss).length)
    (hMmv : cfg.batchSize.toNat ≤ (eligibleMovieMatches ms).length) :
    (findLowScoreEpisodes sc cfg).lowScoreEpisodes.elems
        = (eligibleEpisodeMatches sc ss).take cfg.batchSize.toNat
    ∧ (findLowScoreEpisodes sc cfg).lowScoreEpisodes.elems.length
        = cfg.batchSize.toNat
    ∧ (findLowScoreEpisodes sc cfg).episodeFetches
        = fetchesUpTo sc cfg.batchSize.toNat ss
    ∧ (findLowScoreMovies rc cfg).lowScoreMovies.elems
        = (eligibleMovieMatches ms).take cfg.batchSize.toNat
    ∧ (findLowScoreMovies rc cfg).lowScoreMovies.elems.length
        = cfg.batchSize.toNat := by
  have hbudget : initEpState.processedCount + ((cfg.batchSize.toNat : Nat) : Int)
      = cfg.batchSize := by
    simp [initEpState]
    omega
  have hn : 0 < cfg.batchSize.toNat := by omega
  obtain ⟨h1, _, _, _, h5⟩ := scanSeries_limited sc cfg initEpState ss
    cfg.batchSize.toNat hpos hbudget hn (by simp [initEpState])
  obtain ⟨g1, _⟩ := scanMovies_limited cfg initMvState ms
    cfg.batchSize.toNat hpos (by simp [initMvState]; omega) hn
  rw [findLowScoreEpisodes_ok sc cfg ss hs, findLowScoreMovies_ok rc cfg ms hm]
  simp only
  refine ⟨?_, ?_, ?_, ?_, ?_⟩
  · rw [h1]
    simp [initEpState, GoSlice.nil]
  · rw [h1]
    simp only [initEpState, GoSlice.nil, List.nil_append, List.length_take]
    omega
  · rw [h5]
    simp [initEpState]
  · rw [g1]
    simp [initMvState, GoSlice.nil]
  · rw [g1]
    simp only [initMvState, GoSlice.nil, List.nil_append, List.length_take]
    omega

/-- C1 witness: a catalog of two series with three eligible episodes
among four, batch size 2: the engine returns the first two eligible
episodes and fetches only the series containing them; the movie engine
returns the first two of three eligible movies. -/
theorem batch_limit_first_n_matches_witness :
    (findLowScoreEpisodes
      ⟨Except.ok [⟨1, "A"⟩, ⟨2, "B"⟩], fun i =>
        if i = 1 then
          Except.ok [⟨101, 1, "E1", 1, 1, true, some ⟨11, -10⟩⟩,
            ⟨102, 1, "E2", 1, 2, true, some ⟨12, 5⟩⟩,
            ⟨103, 1, "E3", 1, 3, true, some ⟨13, -3⟩⟩]
        else Except.ok [⟨201, 2, "F1", 1, 1, true, some ⟨21, -5⟩⟩]⟩
      ⟨false, 2⟩).lowScoreEpisodes.elems.length = 2
    ∧ (findLowScoreEpisodes
      ⟨Except.ok [⟨1, "A"⟩, ⟨2, "B"⟩], fun i =>
        if i = 1 then
          Except.ok [⟨101, 1, "E1", 1, 1, true, some ⟨11, -10⟩⟩,
            ⟨102, 1, "E2", 1, 2, true, some ⟨12, 5⟩⟩,
            ⟨103, 1, "E3", 1, 3, true, some ⟨13, -3⟩⟩]
        else Except.ok [⟨201, 2, "F1", 1, 1, true, some ⟨21, -5⟩⟩]⟩
      ⟨false, 2⟩).episodeFetches = [1]
    ∧ (findLowScoreMovies
      ⟨Except.ok [⟨301, "M1", 1999, true, some ⟨31, -15⟩⟩,
        ⟨302, "M2", 2001, false, none⟩,
        ⟨303, "M3", 2002, true, some ⟨33, -1⟩⟩,
        ⟨304, "M4", 2003, true, some ⟨34, -2⟩⟩]⟩
      ⟨false, 2⟩).lowScoreMovies.elems.length = 2 := by
  obtain ⟨_, h2, h3, _, g2⟩ := batch_limit_first_n_matches
    ⟨Except.ok [⟨1, "A"⟩, ⟨2, "B"⟩], fun i =>
      if i = 1 then
        Except.ok [⟨101, 1, "E1", 1, 1, true, some ⟨11, -10⟩⟩,
          ⟨102, 1, "E2", 1, 2, true, some ⟨12, 5⟩⟩,
          ⟨103, 1, "E3", 1, 3, true, some ⟨13, -3⟩⟩]
      else Except.ok [⟨201, 2, "F1", 1, 1, true, some ⟨21, -5⟩⟩]⟩
    ⟨Except.ok [⟨301, "M1", 1999, true, some ⟨31, -15⟩⟩,
      ⟨302, "M2", 2001, false, none⟩,
      ⟨303, "M3", 2002, true, some ⟨33, -1⟩⟩,
      ⟨304, "M4", 2003, true, some ⟨34, -2⟩⟩]⟩
    ⟨false, 2⟩ _ _ rfl rfl (by decide) (by decide) (by decide)
  refine ⟨h2, ?_, g2⟩
  rw [h3]
  decide

/-- C2: every match either engine returns comes from a leaf item with a
file, a present file-metadata record and a negative custom format score,
and carries that file's score (so every returned match has a negative
score); and with batch size 0 (unlimited) the match list is exactly the
filter of the catalog, so a leaf item is matched iff it passes the
score filter. -/
theorem match_iff_low_score_filter (sc : SonarrClient) (rc : RadarrClient)
    (cfg : Config) :
    (∀ m ∈ (findLowScoreEpisodes sc cfg).lowScoreEpisodes.elems,
      SoundEpisodeMatch m)
    ∧ (∀ m ∈ (findLowScoreMovies rc cfg).lowScoreMovies.elems,
      SoundMovieMatch m)
    ∧ (∀ ss, cfg.batchSize ≤ 0 → sc.getSeries = .ok ss →
        (findLowScoreEpisodes sc cfg).lowScoreEpisodes.elems
          = eligibleEpisodeMatches sc ss)
    ∧ (∀ ms, cfg.batchSize ≤ 0 → rc.getMovies = .ok ms →
        (findLowScoreMovies rc cfg).lowScoreMovies.elems
          = eligibleMovieMatches ms) := by
  refine ⟨?_, ?_, ?_, ?_⟩
  · cases hs : sc.getSeries with
    | error e => simp [findLowScoreEpisodes, hs, GoSlice.nil]
    | ok ss =>
      rw [findLowScoreEpisodes_ok sc cfg ss hs]
      simp only
      exact scanSeries_sound sc cfg initEpState ss
        (by simp [initEpState, GoSlice.nil])
  · cases hm : rc.getMovies with
    | error e => simp [findLowScoreMovies, hm, GoSlice.nil]
    | ok ms =>
      rw [findLowScoreMovies_ok rc cfg ms hm]
      simp only
      exact scanMovies_sound cfg initMvState ms
        (by simp [initMvState, GoSlice.nil])
  · intro ss hneg hs
    rw [findLowScoreEpisodes_ok sc cfg ss hs]
    simp only
    obtain ⟨h1, _, _⟩ := scanSeries_unlimited sc cfg initEpState ss hneg
      (by simp [initEpState])
    rw [h1]
    simp [initEpState, GoSlice.nil]
  · intro ms hneg hm
    rw [findLowScoreMovies_ok rc cfg ms hm]
    simp only
    obtain ⟨g1, _⟩ := scanMovies_unlimited cfg initMvState ms hneg
    rw [g1]
    simp [initMvState, GoSlice.nil]

/-- C2 witness: on a concrete catalog with items of score -10, 5, 0 and
a no-file item, the unlimited scan returns exactly the filtered items
for both engines. -/
theorem match_iff_low_score_filter_witness :
    (findLowScoreEpisodes
      ⟨Except.ok [⟨1, "A"⟩], fun _ =>
        Except.ok [⟨101, 1, "E1", 1, 1, true, some ⟨11, -10⟩⟩,
          ⟨102, 1, "E2", 1, 2, true, some ⟨12, 5⟩⟩,
          ⟨103, 1, "E3", 1, 3, true, some ⟨13, 0⟩⟩,
          ⟨104, 1, "E4", 1, 4, false, none⟩]⟩
      ⟨false, 0⟩).lowScoreEpisodes.elems
        = eligibleEpisodeMatches
          ⟨Except.ok [⟨1, "A"⟩], fun _ =>
            Except.ok [⟨101, 1, "E1", 1, 1, true, some ⟨11, -10⟩⟩,
              ⟨102, 1, "E2", 1, 2, true, some ⟨12, 5⟩⟩,
              ⟨103, 1, "E3", 1, 3, true, some ⟨13, 0⟩⟩,
              ⟨104, 1, "E4", 1, 4, false, none⟩]⟩
          [⟨1, "A"⟩]
    ∧ (findLowScoreMovies
      ⟨Except.ok [⟨301, "M1", 1999, true, some ⟨31, -15⟩⟩,
        ⟨302, "M2", 2001, true, some ⟨32, 10⟩⟩,
        ⟨303, "M3", 2002, false, none⟩]⟩
      ⟨false, 0⟩).lowScoreMovies.elems
        = eligibleMovieMatches
          [⟨301, "M1", 1999, true, some ⟨31, -15⟩⟩,
            ⟨302, "M2", 2001, true, some ⟨32, 10⟩⟩,
            ⟨303, "M3", 2002, false, none⟩] := by
  have h := match_iff_low_score_filter
    ⟨Except.ok [⟨1, "A"⟩], fun _ =>
      Except.ok [⟨101, 1, "E1", 1, 1, true, some ⟨11, -10⟩⟩,
        ⟨102, 1, "E2", 1, 2, true, some ⟨12, 5⟩⟩,
        ⟨103, 1, "E3", 1, 3, true, some ⟨13, 0⟩⟩,
        ⟨104, 1, "E4", 1, 4, false, none⟩]⟩
    ⟨Except.ok [⟨301, "M1", 1999, true, some ⟨31, -15⟩⟩,
      ⟨302, "M2", 2001, true, some ⟨32, 10⟩⟩,
      ⟨303, "M3", 2002, false, none⟩]⟩
    ⟨false, 0⟩
  exact ⟨h.2.2.1 _ (by decide) rfl, h.2.2.2 _ (by decide) rfl⟩

/-- C5: a series whose episode fetch fails is skipped: the scan state
handed to the remaining series is unchanged (same match list, same
pending-search list, same counter — only the ghost fetch trace records
the attempt), so none of its episodes are matched or queued and the
batch counter does not advance, the next series is still scanned, and
the run still ends without error. -/
theorem failed_series_fetch_skipped (client : SonarrClient) (cfg : Config)
    (st : EpScanState) (s : Series) (rest : List Series) (msg : String)
    (ss : List Series)
    (hfail : client.getEpisodes s.id = .error msg)
    (hrl : st.reachedLimit = false)
    (hok : client.getSeries = .ok ss) :
    scanSeries client cfg st (s :: rest) =
      scanSeries client cfg
        { st with episodeFetches := st.episodeFetches ++ [s.id] } rest
    ∧ (findLowScoreEpisodes client cfg).error = none := by
  constructor
  · simp only [scanSeries]
    rw [if_neg (by simp [hrl]), hfail]
  · rw [findLowScoreEpisodes_ok client cfg ss hok]

/-- C5 witness: concrete two-series catalog where the first series'
episode fetch fails; the scan over both series equals the scan over the
second alone (with the failed fetch recorded), and the run returns no
error. -/
theorem failed_series_fetch_skipped_witness :
    scanSeries
        ⟨Except.ok [⟨1, "A"⟩, ⟨2, "B"⟩], fun i =>
          if i = 1 then Except.error "boom"
          else Except.ok [⟨201, 2, "F1", 1, 1, true, some ⟨21, -5⟩⟩]⟩
        ⟨false, 0⟩ initEpState [⟨1, "A"⟩, ⟨2, "B"⟩] =
      scanSeries
        ⟨Except.ok [⟨1, "A"⟩, ⟨2, "B"⟩], fun i =>
          if i = 1 then Except.error "boom"
          else Except.ok [⟨201, 2, "F1", 1, 1, true, some ⟨21, -5⟩⟩]⟩
        ⟨false, 0⟩
        { initEpState with episodeFetches := initEpState.episodeFetches ++ [1] }
        [⟨2, "B"⟩]
    ∧ (findLowScoreEpisodes
        ⟨Except.ok [⟨1, "A"⟩, ⟨2, "B"⟩], fun i =>
          if i = 1 then Except.error "boom"
          else Except.ok [⟨201, 2, "F1", 1, 1, true, some ⟨21, -5⟩⟩]⟩
        ⟨false, 0⟩).error = none :=
  failed_series_fetch_skipped
    ⟨Except.ok [⟨1, "A"⟩, ⟨2, "B"⟩], fun i =>
      if i = 1 then Except.error "boom"
      else Except.ok [⟨201, 2, "F1", 1, 1, true, some ⟨21, -5⟩⟩]⟩
    ⟨false, 0⟩ initEpState ⟨1, "A"⟩ [⟨2, "B"⟩] "boom" [⟨1, "A"⟩, ⟨2, "B"⟩]
    rfl rfl rfl

/-- C3: with triggering enabled and K collected IDs, each engine issues
exactly ceil(K/C) trigger calls (C = `DefaultSearchBatchSize`), the i-th
call carrying the consecutive slice `ids[i*C : i*C+C]`; every call has
between 1 and C IDs and their concatenation in call order is the
original ID list (all K IDs, no duplicates, original order). -/
theorem trigger_calls_chunking (sc : SonarrClient) (rc : RadarrClient)
    (cfg : Config) (htr : cfg.triggerSearch = true)
    (hep : (findLowScoreEpisodes sc cfg).episodesToSearch ≠ [])
    (hmv : (findLowScoreMovies rc cfg).moviesToSearch ≠ []) :
    ((findLowScoreEpisodes sc cfg).triggerCalls =
        triggerBatches (findLowScoreEpisodes sc cfg).episodesToSearch
      ∧ (findLowScoreEpisodes sc cfg).triggerCalls.length =
        ((findLowScoreEpisodes sc cfg).episodesToSearch.length +
          (DefaultSearchBatchSize - 1)) / DefaultSearchBatchSize
      ∧ (findLowScoreEpisodes sc cfg).triggerCalls.flatten =
        (findLowScoreEpisodes sc cfg).episodesToSearch
      ∧ (∀ i, i < (findLowScoreEpisodes sc cfg).triggerCalls.length →
          (findLowScoreEpisodes sc cfg).triggerCalls.getD i [] =
            ((findLowScoreEpisodes sc cfg).episodesToSearch.drop
              (i * DefaultSearchBatchSize)).take DefaultSearchBatchSize)
      ∧ (∀ b ∈ (findLowScoreEpisodes sc cfg).triggerCalls,
          0 < b.length ∧ b.length ≤ DefaultSearchBatchSize))
    ∧ ((findLowScoreMovies rc cfg).triggerCalls =
        triggerBatches (findLowScoreMovies rc cfg).moviesToSearch
      ∧ (findLowScoreMovies rc cfg).triggerCalls.length =
        ((findLowScoreMovies rc cfg).moviesToSearch.length +
          (DefaultSearchBatchSize - 1)) / DefaultSearchBatchSize
      ∧ (findLowScoreMovies rc cfg).triggerCalls.flatten =
        (findLowScoreMovies rc cfg).moviesToSearch
      ∧ (∀ i, i < (findLowScoreMovies rc cfg).triggerCalls.length →
          (findLowScoreMovies rc cfg).triggerCalls.getD i [] =
            ((findLowScoreMovies rc cfg).moviesToSearch.drop
              (i * DefaultSearchBatchSize)).take DefaultSearchBatchSize)
      ∧ (∀ b ∈ (findLowScoreMovies rc cfg).triggerCalls,
          0 < b.length ∧ b.length ≤ DefaultSearchBatchSize)) := by
  have hepCalls : (findLowScoreEpisodes sc cfg).triggerCalls =
      triggerBatches (findLowScoreEpisodes sc cfg).episodesToSearch := by
    cases hs : sc.getSeries with
    | error e =>
      exact absurd (by simp [findLowScoreEpisodes, hs]) hep
    | ok ss =>
      rw [findLowScoreEpisodes_ok sc cfg ss hs] at hep ⊢
      simp only at hep ⊢
      rw [if_pos ⟨htr, by simpa [List.length_pos] using hep⟩]
  have hmvCalls : (findLowScoreMovies rc cfg).triggerCalls =
      triggerBatches (findLowScoreMovies rc cfg).moviesToSearch := by
    cases hm : rc.getMovies with
    | error e =>
      exact absurd (by simp [findLowScoreMovies, hm]) hmv
    | ok ms =>
      rw [findLowScoreMovies_ok rc cfg ms hm] at hmv ⊢
      simp only at hmv ⊢
      rw [if_pos ⟨htr, by simpa [List.length_pos] using hmv⟩]
  refine ⟨⟨hepCalls, ?_, ?_, ?_, ?_⟩, hmvCalls, ?_, ?_, ?_, ?_⟩
  · rw [hepCalls]
    exact triggerBatches_length _
  · rw [hepCalls]
    exact triggerBatches_flatten _
  · rw [hepCalls]
    exact triggerBatches_getD _
  · rw [hepCalls]
    exact triggerBatches_mem _
  · rw [hmvCalls]
    exact triggerBatches_length _
  · rw [hmvCalls]
    exact triggerBatches_flatten _
  · rw [hmvCalls]
    exact triggerBatches_getD _
  · rw [hmvCalls]
    exact triggerBatches_mem _

/-- C3 witness: one eligible episode and one eligible movie with
triggering enabled: the concatenation of the issued calls is the
collected ID list for both engines. -/
theorem trigger_calls_chunking_witness :
    (findLowScoreEpisodes
      ⟨Except.ok [⟨1, "A"⟩], fun _ =>
        Except.ok [⟨101, 1, "E1", 1, 1, true, some ⟨11, -5⟩⟩]⟩
      ⟨true, 0⟩).triggerCalls.flatten =
      (findLowScoreEpisodes
        ⟨Except.ok [⟨1, "A"⟩], fun _ =>
          Except.ok [⟨101, 1, "E1", 1, 1, true, some ⟨11, -5⟩⟩]⟩
        ⟨true, 0⟩).episodesToSearch
    ∧ (findLowScoreMovies
      ⟨Except.ok [⟨301, "M1", 1999, true, some ⟨31, -15⟩⟩]⟩
      ⟨true, 0⟩).triggerCalls.flatten =
      (findLowScoreMovies
        ⟨Except.ok [⟨301, "M1", 1999, true, some ⟨31, -15⟩⟩]⟩
        ⟨true, 0⟩).moviesToSearch := by
  have h := trigger_calls_chunking
    ⟨Except.ok [⟨1, "A"⟩], fun _ =>
      Except.ok [⟨101, 1, "E1", 1, 1, true, some ⟨11, -5⟩⟩]⟩
    ⟨Except.ok [⟨301, "M1", 1999, true, some ⟨31, -15⟩⟩]⟩
    ⟨true, 0⟩ rfl (by decide) (by decide)
  exact ⟨h.1.2.2.1, h.2.2.2.1⟩

/-- Evaluation of a concrete limit-reached episode run: batch size 1,
one series with two low-score episodes; the scan stops after the first
match and one trigger call for it is still issued. -/
lemma limit_run_episode_calls :
    (findLowScoreEpisodes
      ⟨Except.ok [⟨1, "A"⟩], fun _ =>
        Except.ok [⟨101, 1, "E1", 1, 1, true, some ⟨11, -5⟩⟩,
          ⟨102, 1, "E2", 1, 2, true, some ⟨12, -4⟩⟩]⟩
      ⟨true, 1⟩).triggerCalls = [[101]] := by
  rw [findLowScoreEpisodes_ok _ _ _ rfl]
  simp only
  have hts : (scanSeries
      ⟨Except.ok [⟨1, "A"⟩], fun _ =>
        Except.ok [⟨101, 1, "E1", 1, 1, true, some ⟨11, -5⟩⟩,
          ⟨102, 1, "E2", 1, 2, true, some ⟨12, -4⟩⟩]⟩
      ⟨true, 1⟩ initEpState [⟨1, "A"⟩]).episodesToSearch = [101] := by
    decide
  rw [hts, if_pos ⟨by decide, by decide⟩]
  exact triggerBatches_of_short [101] (by decide) (by decide)

/-- Evaluation of a concrete limit-reached movie run: batch size 1, two
low-score movies; the loop breaks after the first match and one trigger
call for it is still issued. -/
lemma limit_run_movie_calls :
    (findLowScoreMovies
      ⟨Except.ok [⟨301, "M1", 1999, true, some ⟨31, -15⟩⟩,
        ⟨302, "M2", 2001, true, some ⟨32, -2⟩⟩]⟩
      ⟨true, 1⟩).triggerCalls = [[301]] := by
  rw [findLowScoreMovies_ok _ _ _ rfl]
  simp only
  have hts : (scanMovies ⟨true, 1⟩ initMvState
      [⟨301, "M1", 1999, true, some ⟨31, -15⟩⟩,
        ⟨302, "M2", 2001, true, some ⟨32, -2⟩⟩]).moviesToSearch = [301] := by
    decide
  rw [hts, if_pos ⟨by decide, by decide⟩]
  exact triggerBatches_of_short [301] (by decide) (by decide)

/-- C7 counterexample: a concrete run (batch size 1, trigger enabled,
one series with two low-score episodes) in which the batch limit is
reached — the scan's limit flag is set and only one match is returned —
and the episode path nevertheless falls through to search-triggering,
issuing the call `[[101]]` instead of returning immediately without
triggering as claimed. -/
theorem episode_path_triggers_at_limit :
    (scanSeries
      ⟨Except.ok [⟨1, "A"⟩], fun _ =>
        Except.ok [⟨101, 1, "E1", 1, 1, true, some ⟨11, -5⟩⟩,
          ⟨102, 1, "E2", 1, 2, true, some ⟨12, -4⟩⟩]⟩
      ⟨true, 1⟩ initEpState [⟨1, "A"⟩]).reachedLimit = true
    ∧ (findLowScoreEpisodes
      ⟨Except.ok [⟨1, "A"⟩], fun _ =>
        Except.ok [⟨101, 1, "E1", 1, 1, true, some ⟨11, -5⟩⟩,
          ⟨102, 1, "E2", 1, 2, true, some ⟨12, -4⟩⟩]⟩
      ⟨true, 1⟩).triggerCalls = [[101]] ∧ [[(101 : Int)]] ≠ [] :=
  ⟨by decide, limit_run_episode_calls, by decide⟩

/-- C7 (amended): when the batch limit is reached with trigger-search
enabled, BOTH variants fall through to search-triggering for the
already-collected items — the episode path does not early-return, and
the two paths are symmetric on the batch-limit path: each issues the
sub-batches of its collected ID list, and at least one call. -/
theorem both_paths_trigger_after_limit (sc : SonarrClient)
    (rc : RadarrClient) (cfg : Config) (ss : List Series)
    (ms : List MovieWithFile)
    (hs : sc.getSeries = .ok ss) (hm : rc.getMovies = .ok ms)
    (htr : cfg.triggerSearch = true) (hpos : 0 < cfg.batchSize)
    (hMep : cfg.batchSize.toNat ≤ (eligibleEpisodeMatches sc ss).length)
    (hMmv : cfg.batchSize.toNat ≤ (eligibleMovieMatches ms).length) :
    (findLowScoreEpisodes sc cfg).lowScoreEpisodes.elems.length
        = cfg.batchSize.toNat
    ∧ (findLowScoreEpisodes sc cfg).triggerCalls =
        triggerBatches (findLowScoreEpisodes sc cfg).episodesToSearch
    ∧ (findLowScoreEpisodes sc cfg).triggerCalls ≠ []
    ∧ (findLowScoreMovies rc cfg).lowScoreMovies.elems.length
        = cfg.batchSize.toNat
    ∧ (findLowScoreMovies rc cfg).triggerCalls =
        triggerBatches (findLowScoreMovies rc cfg).moviesToSearch
    ∧ (findLowScoreMovies rc cfg).triggerCalls ≠ [] := by
  have hn : 0 < cfg.batchSize.toNat := by omega
  obtain ⟨h1, h2, _, _, _⟩ := scanSeries_limited sc cfg initEpState ss
    cfg.batchSize.toNat hpos (by simp [initEpState]; omega) hn
    (by simp [initEpState])
  obtain ⟨g1, g2⟩ := scanMovies_limited cfg initMvState ms
    cfg.batchSize.toNat hpos (by simp [initMvState]; omega) hn
  have hepne : (scanSeries sc cfg initEpState ss).episodesToSearch ≠ [] := by
    rw [h2, htr]
    simp only [initEpState, List.nil_append, if_true]
    intro hcontra
    have := congrArg List.length hcontra
    simp only [List.length_map, List.length_take, List.length_nil] at this
    omega
  have hmvne : (scanMovies cfg initMvState ms).moviesToSearch ≠ [] := by
    rw [g2, htr]
    simp only [initMvState, List.nil_append, if_true]
    intro hcontra
    have := congrArg List.length hcontra
    simp only [List.length_map, List.length_take, List.length_nil] at this
    omega
  rw [findLowScoreEpisodes_ok sc cfg ss hs, findLowScoreMovies_ok rc cfg ms hm]
  simp only
  refine ⟨?_, ?_, ?_, ?_, ?_, ?_⟩
  · rw [h1]
    simp only [initEpState, GoSlice.nil, List.nil_append, List.length_take]
    omega
  · rw [if_pos ⟨htr, by simpa [List.length_pos] using hepne⟩]
  · rw [if_pos ⟨htr, by simpa [List.length_pos] using hepne⟩]
    exact triggerBatches_ne_nil _ hepne
  · rw [g1]
    simp only [initMvState, GoSlice.nil, List.nil_append, List.length_take]
    omega
  · rw [if_pos ⟨htr, by simpa [List.length_pos] using hmvne⟩]
  · rw [if_pos ⟨htr, by simpa [List.length_pos] using hmvne⟩]
    exact triggerBatches_ne_nil _ hmvne

/-- C7 (amended) witness: concrete limit-reached runs with trigger
enabled — both the episode path and the movie path issue at least one
trigger call. -/
theorem both_paths_trigger_after_limit_witness :
    (findLowScoreEpisodes
      ⟨Except.ok [⟨1, "A"⟩], fun _ =>
        Except.ok [⟨101, 1, "E1", 1, 1, true, some ⟨11, -5⟩⟩,
          ⟨102, 1, "E2", 1, 2, true, some ⟨12, -4⟩⟩]⟩
      ⟨true, 1⟩).triggerCalls ≠ []
    ∧ (findLowScoreMovies
      ⟨Except.ok [⟨301, "M1", 1999, true, some ⟨31, -15⟩⟩,
        ⟨302, "M2", 2001, true, some ⟨32, -2⟩⟩]⟩
      ⟨true, 1⟩).triggerCalls ≠ [] := by
  have h := both_paths_trigger_after_limit
    ⟨Except.ok [⟨1, "A"⟩], fun _ =>
      Except.ok [⟨101, 1, "E1", 1, 1, true, some ⟨11, -5⟩⟩,
        ⟨102, 1, "E2", 1, 2, true, some ⟨12, -4⟩⟩]⟩
    ⟨Except.ok [⟨301, "M1", 1999, true, some ⟨31, -15⟩⟩,
      ⟨302, "M2", 2001, true, some ⟨32, -2⟩⟩]⟩
    ⟨true, 1⟩ _ _ rfl rfl rfl (by decide) (by decide) (by decide)
  exact ⟨h.2.2.1, h.2.2.2.2.2⟩

/-- C8 counterexample: for an empty catalog both engines return the NIL
slice (Go `var s []T` is never appended to), so the returned match list
is nil — not the non-nil empty list the claim asserts — while no error
is raised. -/
theorem empty_catalog_returns_nil_slice :
    (findLowScoreEpisodes ⟨Except.ok [], fun _ => Except.ok []⟩
      ⟨false, 0⟩).lowScoreEpisodes.isNil = true
    ∧ (findLowScoreEpisodes ⟨Except.ok [], fun _ => Except.ok []⟩
      ⟨false, 0⟩).lowScoreEpisodes.elems = []
    ∧ (findLowScoreEpisodes ⟨Except.ok [], fun _ => Except.ok []⟩
      ⟨false, 0⟩).error = none
    ∧ (findLowScoreMovies ⟨Except.ok []⟩ ⟨false, 0⟩).lowScoreMovies.isNil = true
    ∧ (findLowScoreMovies ⟨Except.ok []⟩ ⟨false, 0⟩).error = none := by
  refine ⟨rfl, rfl, rfl, rfl, rfl⟩

/-- C8 (amended): whenever the top-level fetch succeeds the engine
returns without error, and the returned match slice is nil exactly when
it is empty (it is non-nil whenever at least one match was found); for
an empty catalog the result is the empty — nil, not non-nil — list with
no error. -/
theorem match_slice_nil_iff_no_match (sc : SonarrClient) (rc : RadarrClient)
    (cfg : Config) (ss : List Series) (ms : List MovieWithFile)
    (hs : sc.getSeries = .ok ss) (hm : rc.getMovies = .ok ms) :
    (findLowScoreEpisodes sc cfg).error = none
    ∧ ((findLowScoreEpisodes sc cfg).lowScoreEpisodes.isNil = true ↔
        (findLowScoreEpisodes sc cfg).lowScoreEpisodes.elems = [])
    ∧ (ss = [] → (findLowScoreEpisodes sc cfg).lowScoreEpisodes.elems = [])
    ∧ (findLowScoreMovies rc cfg).error = none
    ∧ ((findLowScoreMovies rc cfg).lowScoreMovies.isNil = true ↔
        (findLowScoreMovies rc cfg).lowScoreMovies.elems = [])
    ∧ (ms = [] → (findLowScoreMovies rc cfg).lowScoreMovies.elems = []) := by
  rw [findLowScoreEpisodes_ok sc cfg ss hs, findLowScoreMovies_ok rc cfg ms hm]
  simp only
  refine ⟨trivial, ?_, ?_, trivial, ?_, ?_⟩
  · rw [scanSeries_isNil sc cfg initEpState ss (by simp [initEpState, GoSlice.nil])]
    simp
  · intro hss
    subst hss
    simp [scanSeries, initEpState, GoSlice.nil]
  · rw [scanMovies_isNil cfg initMvState ms (by simp [initMvState, GoSlice.nil])]
    simp
  · intro hms
    subst hms
    simp [scanMovies, initMvState, GoSlice.nil]

/-- C8 (amended) witness: on an empty concrete catalog both engines
return an empty (nil) match list and no error. -/
theorem match_slice_nil_iff_no_match_witness :
    (findLowScoreEpisodes ⟨Except.ok [], fun _ => Except.ok []⟩
      ⟨true, 5⟩).error = none
    ∧ (findLowScoreEpisodes ⟨Except.ok [], fun _ => Except.ok []⟩
      ⟨true, 5⟩).lowScoreEpisodes.elems = []
    ∧ (findLowScoreMovies ⟨Except.ok []⟩ ⟨true, 5⟩).error = none
    ∧ (findLowScoreMovies ⟨Except.ok []⟩ ⟨true, 5⟩).lowScoreMovies.elems = [] := by
  have h := match_slice_nil_iff_no_match
    ⟨Except.ok [], fun _ => Except.ok []⟩ ⟨Except.ok []⟩
    ⟨true, 5⟩ [] [] rfl rfl
  exact ⟨h.1, h.2.2.1 rfl, h.2.2.2.1, h.2.2.2.2.2 rfl⟩

/-- C10: every ID list either engine passes to a trigger call is
non-empty (each issued sub-batch has at least one ID), so the clients'
empty-list rejection branch ("no episode IDs provided" / "no movie IDs
provided") is unreachable from the engine: the guard always falls
through to the HTTP layer. -/
theorem trigger_calls_nonempty (sc : SonarrClient) (rc : RadarrClient)
    (cfg : Config) (http : List Int → Except String CommandResponse) :
    (∀ b ∈ (findLowScoreEpisodes sc cfg).triggerCalls,
      0 < b.length ∧ TriggerEpisodeSearch http b = http b)
    ∧ (∀ b ∈ (findLowScoreMovies rc cfg).triggerCalls,
      0 < b.length ∧ TriggerMovieSearch http b = http b) := by
  constructor
  · intro b hb
    have hlen : 0 < b.length := by
      cases hs : sc.getSeries with
      | error e =>
        simp [findLowScoreEpisodes, hs] at hb
      | ok ss =>
        rw [findLowScoreEpisodes_ok sc cfg ss hs] at hb
        simp only at hb
        by_cases hcond : cfg.triggerSearch = true ∧
            (scanSeries sc cfg initEpState ss).episodesToSearch.length > 0
        · rw [if_pos hcond] at hb
          exact (triggerBatches_mem _ b hb).1
        · rw [if_neg hcond] at hb
          simp at hb
    refine ⟨hlen, ?_⟩
    rw [TriggerEpisodeSearch, if_neg (by omega)]
  · intro b hb
    have hlen : 0 < b.length := by
      cases hm : rc.getMovies with
      | error e =>
        simp [findLowScoreMovies, hm] at hb
      | ok ms =>
        rw [findLowScoreMovies_ok rc cfg ms hm] at hb
        simp only at hb
        by_cases hcond : cfg.triggerSearch = true ∧
            (scanMovies cfg initMvState ms).moviesToSearch.length > 0
        · rw [if_pos hcond] at hb
          exact (triggerBatches_mem _ b hb).1
        · rw [if_neg hcond] at hb
          simp at hb
    refine ⟨hlen, ?_⟩
    rw [TriggerMovieSearch, if_neg (by omega)]

/-- C10 witness: at concrete limit-reached runs each engine issues the
single call `[101]` (resp. `[301]`), which is non-empty and passes the
client guard straight to the HTTP layer. -/
theorem trigger_calls_nonempty_witness :
    (0 < [(101 : Int)].length ∧
      TriggerEpisodeSearch (fun _ => Except.ok ⟨1, "n", "c", "ok"⟩) [101] =
        (fun _ => Except.ok (⟨1, "n", "c", "ok"⟩ : CommandResponse)) [101])
    ∧ (0 < [(301 : Int)].length ∧
      TriggerMovieSearch (fun _ => Except.ok ⟨1, "n", "c", "ok"⟩) [301] =
        (fun _ => Except.ok (⟨1, "n", "c", "ok"⟩ : CommandResponse)) [301]) := by
  have h := trigger_calls_nonempty
    ⟨Except.ok [⟨1, "A"⟩], fun _ =>
      Except.ok [⟨101, 1, "E1", 1, 1, true, some ⟨11, -5⟩⟩,
        ⟨102, 1, "E2", 1, 2, true, some ⟨12, -4⟩⟩]⟩
    ⟨Except.ok [⟨301, "M1", 1999, true, some ⟨31, -15⟩⟩,
      ⟨302, "M2", 2001, true, some ⟨32, -2⟩⟩]⟩
    ⟨true, 1⟩ (fun _ => Except.ok ⟨1, "n", "c", "ok"⟩)
  exact ⟨h.1 [101] (by rw [limit_run_episode_calls]; exact List.mem_singleton.mpr rfl),
    h.2 [301] (by rw [limit_run_movie_calls]; exact List.mem_singleton.mpr rfl)⟩

end ScoreChecker
